import Mathlib

/-!
Verification of the expense-tracker record store, persistence layer and
metrics engine (`expense_app/expense_tracker.py`).

The wide spreadsheet row is embedded as a `Row` structure: missing cells
(`NaN`/`NaT`/`None`) become `Option.none`, monetary values are rationals,
and dates are integers (comparison of dates is all the code uses).  The
in-memory table (`st.session_state.df`) is a `List Row`; every operation of
the store is translated as a pure function from the table (and the inputs
the Python reads from the clock) to its result and the updated table.
Persistence (`save_excel_data`) is embedded as a transition on an abstract
`Disk` state recording the backing file content and the modification times
of the `<path>.bak.*` files; the two injectable failures (backup copy,
write) are explicit boolean parameters, and interpolated path/exception
text in messages is abstracted away.
-/

namespace ExpenseTracker

/-- One row of `Sheet1`: columns `Name`, `Monthly Income`,
`Expense Category`, `Expense SubCategory`, `Expected`, `Actuals`,
`Payment Date`, `Due Date`, `Paid`.  The unnamed filler columns are not
interpreted by any operation and are omitted. -/
structure Row where
  name : Option String
  monthlyIncome : Option ℚ
  category : Option String
  subcategory : Option String
  expected : Option ℚ
  actuals : Option ℚ
  paymentDate : Option Int
  dueDate : Option Int
  paid : Bool
deriving DecidableEq, Repr

/-- Module constant `BACKUP_RETENTION = 5`. -/
def BACKUP_RETENTION : Nat := 5

/-- The expense-row mask used throughout the file:
`Expense Category` and `Expense SubCategory` both non-null and non-empty. -/
def isExpenseRow (r : Row) : Bool :=
  (match r.category with
   | some c => c ≠ ""
   | none => false) &&
  (match r.subcategory with
   | some s => s ≠ ""
   | none => false)

/-- Embedding of `get_total_income`: iterate the distinct non-missing values of `Name`;
for each, read `Monthly Income` from the first row carrying that name and
add it when it is non-missing. -/
def get_total_income (t : List Row) : ℚ :=
  ((t.filterMap Row.name).dedup).foldl
    (fun total individual =>
      match t.find? (fun r => r.name = some individual) with
      | some r =>
          match r.monthlyIncome with
          | some v => total + v
          | none => total
      | none => total) 0

/-- Embedding of `is_open_due(row)` inside `get_total_expenses`: true iff `Due Date`
parses to a date (`none` models `NaT`/unparseable), that date is strictly
after `today`, and `Paid` is falsy. -/
def is_open_due (today : Int) (r : Row) : Bool :=
  match r.dueDate with
  | none => false
  | some due_dt => decide (today < due_dt) && !r.paid

/-- Embedding of `get_total_expenses`: restrict to expense rows, drop the rows for which
`is_open_due` holds, and sum `Actuals` with missing values as 0. -/
def get_total_expenses (today : Int) (t : List Row) : ℚ :=
  (((t.filter isExpenseRow).filter (fun r => !is_open_due today r)).map
    (fun r => r.actuals.getD 0)).sum

/-- Embedding of `get_expected_money_on_hand`: total income minus the sum of `Expected`
over every expense row (no open-due filtering on this path). -/
def get_expected_money_on_hand (t : List Row) : ℚ :=
  get_total_income t - ((t.filter isExpenseRow).map (fun r => r.expected.getD 0)).sum

/-- Row mask used by the keyed operations: exact match of
`Expense Category` and `Expense SubCategory`. -/
def keyMatch (category subcategory : String) (r : Row) : Bool :=
  r.category = some category && r.subcategory = some subcategory

/-- Embedding of `reset_monthly`: when at least one expense row exists, zero `Actuals`,
clear `Payment Date` and unset `Paid` on every expense row (other rows and
other columns untouched), returning success; otherwise fail with
"No expense rows to reset" and leave the table as it is.  The persistence
call made on the success path is modelled separately by `save_excel_data`. -/
def reset_monthly (t : List Row) : (Bool × String) × List Row :=
  if t.any isExpenseRow then
    ((true, "OK"),
     t.map (fun r =>
       if isExpenseRow r then
         { r with actuals := some 0, paymentDate := none, paid := false }
       else r))
  else ((false, "No expense rows to reset"), t)

/-- Embedding of `add_category_subcategory`: duplicate `(category, subcategory)` keys are
rejected before any mutation; otherwise a fresh row is appended with the
given amounts, `Paid = False` and both dates `NaT`.  Interpolated success
text is abstracted to "OK". -/
def add_category_subcategory (category subcategory : String)
    (expected actuals : ℚ) (t : List Row) : (Bool × String) × List Row :=
  if t.any (keyMatch category subcategory) then
    ((false, "Category/Subcategory combination already exists!"), t)
  else
    ((true, "OK"),
     t ++ [{ name := none, monthlyIncome := none,
             category := some category, subcategory := some subcategory,
             expected := some expected, actuals := some actuals,
             paymentDate := none, dueDate := none, paid := false }])

/-- Embedding of `remove_category`: fail with "Category not found!" when no row carries
the category; otherwise drop every row carrying it and report the count of
dropped rows (the `count` interpolated into the success message). -/
def remove_category (category : String) (t : List Row) :
    (Bool × Nat) × List Row :=
  let mask := fun r : Row => r.category = some category
  if t.any mask then
    (((true, (t.filter mask).length)), t.filter (fun r => !mask r))
  else ((false, 0), t)

/-- Embedding of `set_paid_status`: fail when the key is absent; otherwise set `Paid` on
every matching row and stamp `Payment Date` with the current date when
marking paid, clearing it when unmarking.  `today` stands for the
`datetime.now()` date the Python formats into the stamp. -/
def set_paid_status (today : Int) (category subcategory : String)
    (paid_flag : Bool) (t : List Row) : (Bool × String) × List Row :=
  if t.any (keyMatch category subcategory) then
    ((true, "OK"),
     t.map (fun r =>
       if keyMatch category subcategory r then
         { r with paid := paid_flag,
                  paymentDate := if paid_flag then some today else none }
       else r))
  else ((false, "Category/Subcategory not found"), t)

/-- Abstract disk state for `save_excel_data`: the backing file content (if
present) and the modification times of the existing `<path>.bak.*` files,
in creation order. -/
structure Disk where
  file : Option (List Row)
  backups : List Int
deriving DecidableEq, Repr

/-- The purge step of `save_excel_data`: when more than `BACKUP_RETENTION`
backups exist, sort them by modification time ascending and delete the
oldest `count - BACKUP_RETENTION` of them. -/
def purgeBackups (backups : List Int) : List Int :=
  if backups.length > BACKUP_RETENTION then
    let sortedBk := backups.insertionSort (· ≤ ·)
    let numToDelete := backups.length - BACKUP_RETENTION
    backups.filter (fun b => b ∉ sortedBk.take numToDelete)
  else backups

/-- Embedding of `save_excel_data` as a disk transition.  `now` is the backup timestamp
(doubling as the modification time of the copied file), `backupFails` and
`writeFails` inject the two fallible steps.  When the target exists: a
failed backup aborts with an error naming the backup step and touches
nothing; otherwise the backup is recorded, the retention purge runs, and
the write either fails (backups kept, file untouched) or atomically
replaces the file.  When no target exists, no backup or purge happens. -/
def save_excel_data (now : Int) (backupFails writeFails : Bool)
    (df : List Row) (disk : Disk) : (Bool × String) × Disk :=
  match disk.file with
  | some _ =>
      if backupFails then
        ((false, "Failed to create backup"), disk)
      else
        let afterPurge : Disk :=
          { disk with backups := purgeBackups (disk.backups ++ [now]) }
        if writeFails then ((false, "write failed"), afterPurge)
        else ((true, "Wrote"), { afterPurge with file := some df })
  | none =>
      if writeFails then ((false, "write failed"), disk)
      else ((true, "Wrote"), { disk with file := some df })

/-- A sequence of successful saves: fold `save_excel_data` (no injected
failures) over a list of `(timestamp, table)` events. -/
def runSaves (events : List (Int × List Row)) (disk : Disk) : Disk :=
  events.foldl (fun acc e => (save_excel_data e.1 false false e.2 acc).2) disk

/-! ### Spec-side definitions and example tables -/

/-- A row with every cell missing, for building concrete tables. -/
def blankRow : Row :=
  { name := none, monthlyIncome := none, category := none, subcategory := none,
    expected := none, actuals := none, paymentDate := none, dueDate := none,
    paid := false }

/-- Two rows for the same individual: the first with a missing
`Monthly Income`, the second with income 100. -/
def incomeCexTable : List Row :=
  [ { blankRow with name := some "A" },
    { blankRow with name := some "A", monthlyIncome := some 100 } ]

/-- The spec sentence for `totalIncome` taken literally: per distinct
non-missing name, the first NON-MISSING `Monthly Income` value recorded
for that name (0 when every value for the name is missing). -/
def totalIncome_claimed (t : List Row) : ℚ :=
  (((t.filterMap Row.name).dedup).map (fun n =>
    ((t.filterMap
        (fun r => if r.name = some n then r.monthlyIncome else none)).head?).getD 0)).sum

/-- The `Monthly Income` of the first row (missing or not) carrying name `n`,
with a missing value contributing 0. -/
def firstRowIncome (t : List Row) (n : String) : ℚ :=
  match t.find? (fun r => r.name = some n) with
  | some r => r.monthlyIncome.getD 0
  | none => 0

/-- The amended reading of `totalIncome`: sum over the set of distinct
non-missing names of the income stored on the first row bearing the name,
missing treated as 0. -/
def totalIncome_amended (t : List Row) : ℚ :=
  (t.filterMap Row.name).toFinset.sum (firstRowIncome t)

/-! ### Helper lemmas -/

lemma get_total_income_foldl (t : List Row) :
    ∀ (l : List String) (a : ℚ),
      l.foldl
        (fun total individual =>
          match t.find? (fun r => r.name = some individual) with
          | some r =>
              match r.monthlyIncome with
              | some v => total + v
              | none => total
          | none => total) a
        = a + (l.map (firstRowIncome t)).sum := by
  intro l
  induction l with
  | nil => intro a; simp
  | cons n l ih =>
      intro a
      have hbody :
          (match t.find? (fun r => r.name = some n) with
           | some r =>
               match r.monthlyIncome with
               | some v => a + v
               | none => a
           | none => a) = a + firstRowIncome t n := by
        unfold firstRowIncome
        cases t.find? (fun r => r.name = some n) with
        | none => simp
        | some r =>
            cases hmi : r.monthlyIncome with
            | none => simp [hmi]
            | some v => simp [hmi]
      simp only [List.foldl_cons, List.map_cons, List.sum_cons]
      rw [ih, hbody]
      ring_nf

lemma toFinset_dedup_list {α : Type} [DecidableEq α] (l : List α) :
    l.dedup.toFinset = l.toFinset :=
  Finset.ext fun a => by simp [List.mem_toFinset, List.mem_dedup]

/-! ### Claim theorems -/

/-- C1 (counterexample): on a table whose first row for individual "A" has
a missing income and whose second row for "A" carries income 100, the code
returns 0 while the claimed formula (first non-missing value per name)
gives 100, so `get_total_income` does not satisfy the claim as stated. -/
theorem get_total_income_C1_counterexample :
    get_total_income incomeCexTable = 0 ∧
    totalIncome_claimed incomeCexTable = 100 ∧
    get_total_income incomeCexTable ≠ totalIncome_claimed incomeCexTable := by
  have h1 : get_total_income incomeCexTable = 0 := by rfl
  have h2 : totalIncome_claimed incomeCexTable = 100 := by
    norm_num [totalIncome_claimed, incomeCexTable, blankRow, List.dedup,
      List.pwFilter, List.filterMap_cons]
  refine ⟨h1, h2, ?_⟩
  rw [h1, h2]
  norm_num

/-- C1 (amended): `get_total_income` equals the sum, over the set of
distinct non-missing individual names, of the `Monthly Income` stored on
the FIRST row bearing that name, with a missing value on that first row
contributing 0 (later rows of the same name are never consulted). -/
theorem get_total_income_C1_amended (t : List Row) :
    get_total_income t = totalIncome_amended t := by
  unfold get_total_income totalIncome_amended
  rw [get_total_income_foldl t]
  rw [← toFinset_dedup_list]
  rw [List.sum_toFinset (firstRowIncome t) (List.nodup_dedup _)]
  ring

lemma sum_map_filter_split {α : Type} (p q : α → Bool) (f : α → ℚ) (t : List α) :
    ((t.filter (fun r => p r && q r)).map f).sum +
      ((t.filter (fun r => p r && !q r)).map f).sum
    = ((t.filter p).map f).sum := by
  induction t with
  | nil => simp
  | cons r t ih =>
      by_cases hp : p r
      · by_cases hq : q r
        · simp only [List.filter_cons, hp, hq]
          simp
          rw [← ih]
          ring
        · simp only [List.filter_cons, hp, Bool.eq_false_iff.mpr hq]
          simp
          rw [← ih]
          ring
      · simp only [List.filter_cons, Bool.eq_false_iff.mpr hp]
        simp
        exact ih

/-- C2: `get_total_expenses` sums `Actuals` over exactly the expense rows
(non-empty category and subcategory) that are not open dues, and
`is_open_due` holds exactly when the due date is set, strictly after
`today`, and the row is unpaid — so a future-dated unpaid row is excluded
and a row due on or before `today` is included. -/
theorem get_total_expenses_C2 (today : Int) (t : List Row) :
    get_total_expenses today t =
      ((t.filter (fun r => isExpenseRow r && !is_open_due today r)).map
        (fun r => r.actuals.getD 0)).sum ∧
    ∀ r : Row, is_open_due today r = true ↔
      ((∃ d, r.dueDate = some d ∧ today < d) ∧ r.paid = false) := by
  constructor
  · unfold get_total_expenses
    rw [List.filter_filter]
    have hfun : (fun a => !is_open_due today a && isExpenseRow a)
        = (fun r => isExpenseRow r && !is_open_due today r) := by
      funext r
      exact Bool.and_comm _ _
    rw [hfun]
  · intro r
    unfold is_open_due
    cases hd : r.dueDate with
    | none => simp [hd]
    | some d => cases hp : r.paid <;> simp [hd, hp]

/-- C5: `get_expected_money_on_hand` is total income minus the sum of
`Expected` over ALL expense rows — equivalently, for any `today`, income
minus the expected amounts of the open-due expense rows and of the
non-open-due expense rows together: no open-due exclusion is applied. -/
theorem get_expected_money_on_hand_C5 (today : Int) (t : List Row) :
    get_expected_money_on_hand t =
      get_total_income t -
        (((t.filter (fun r => isExpenseRow r && is_open_due today r)).map
            (fun r => r.expected.getD 0)).sum +
         ((t.filter (fun r => isExpenseRow r && !is_open_due today r)).map
            (fun r => r.expected.getD 0)).sum) := by
  unfold get_expected_money_on_hand
  rw [sum_map_filter_split isExpenseRow (is_open_due today)]

/-- The paid/payment-date invariant: a paid row has a payment date, an
unpaid row has none. -/
def paidInvariant (t : List Row) : Prop :=
  ∀ r ∈ t, (r.paid = true → r.paymentDate ≠ none) ∧
    (r.paid = false → r.paymentDate = none)

/-- Run a sequence of `set_paid_status` calls
(`(today, category, subcategory, flag)` each) against a table. -/
def applySetPaidCalls (calls : List (Int × String × String × Bool))
    (t : List Row) : List Row :=
  calls.foldl
    (fun acc call => (set_paid_status call.1 call.2.1 call.2.2.1 call.2.2.2 acc).2) t

lemma set_paid_status_preserves (today : Int) (c s : String) (b : Bool)
    (t : List Row) (h : paidInvariant t) :
    paidInvariant (set_paid_status today c s b t).2 := by
  unfold set_paid_status
  split
  · intro r hr
    simp only [List.mem_map] at hr
    obtain ⟨r0, hr0, rfl⟩ := hr
    by_cases hk : keyMatch c s r0
    · simp only [hk, if_true]
      cases b <;> simp
    · simp only [Bool.eq_false_iff.mpr hk, Bool.false_eq_true, if_false]
      exact h r0 hr0
  · exact h

lemma applySetPaidCalls_preserves (calls : List (Int × String × String × Bool)) :
    ∀ t : List Row, paidInvariant t → paidInvariant (applySetPaidCalls calls t) := by
  induction calls with
  | nil => intro t h; exact h
  | cons call calls ih =>
      intro t h
      exact ih _ (set_paid_status_preserves call.1 call.2.1 call.2.2.1 call.2.2.2 t h)

/-- C6: from any table satisfying the paid/payment-date invariant, the
invariant still holds after any sequence of `set_paid_status` calls, and a
single call stamps the current date on the matching rows when marking paid
and clears it when unmarking. -/
theorem set_paid_status_C6 (calls : List (Int × String × String × Bool))
    (t : List Row) (h : paidInvariant t) :
    paidInvariant (applySetPaidCalls calls t) ∧
    ∀ (today : Int) (c s : String) (flag : Bool),
      ∀ r ∈ (set_paid_status today c s flag t).2,
        keyMatch c s r = true →
          r.paid = flag ∧
          (flag = true → r.paymentDate = some today) ∧
          (flag = false → r.paymentDate = none) := by
  refine ⟨applySetPaidCalls_preserves calls t h, ?_⟩
  intro today c s flag r hr hkr
  unfold set_paid_status at hr
  rcases hsplit : t.any (keyMatch c s) with _ | _
  · rw [hsplit] at hr
    simp only [Bool.false_eq_true, if_false] at hr
    have : keyMatch c s r = false := by
      rcases List.any_eq_false.mp hsplit r hr with hcontra
      exact Bool.eq_false_iff.mpr hcontra
    rw [hkr] at this
    cases this
  · rw [hsplit] at hr
    simp only [if_true] at hr
    simp only [List.mem_map] at hr
    obtain ⟨r0, hr0, rfl⟩ := hr
    by_cases hk : keyMatch c s r0
    · simp only [hk, if_true]
      cases flag <;> simp
    · rw [Bool.eq_false_iff.mpr hk] at hkr ⊢
      simp only [Bool.false_eq_true, if_false] at hkr ⊢
      rw [hkr] at hk
      exact absurd rfl hk

/-- C7: when the table has an expense row, `reset_monthly` maps every row
through a function that, on expense rows, zeroes `Actuals`, clears
`Payment Date` and unsets `Paid` while preserving `Expected`, `Due Date`
and the income columns, and leaves non-expense rows identical; when no
expense row exists it fails with "No expense rows to reset" and returns the
table unchanged. -/
theorem reset_monthly_C7 (t : List Row) :
    (t.any isExpenseRow = true →
      ∃ f : Row → Row,
        reset_monthly t = ((true, "OK"), t.map f) ∧
        ∀ r : Row,
          (isExpenseRow r = true →
            (f r).actuals = some 0 ∧ (f r).paymentDate = none ∧
            (f r).paid = false ∧ (f r).expected = r.expected ∧
            (f r).dueDate = r.dueDate ∧ (f r).category = r.category ∧
            (f r).subcategory = r.subcategory ∧ (f r).name = r.name ∧
            (f r).monthlyIncome = r.monthlyIncome) ∧
          (isExpenseRow r = false → f r = r)) ∧
    (t.any isExpenseRow = false →
      reset_monthly t = ((false, "No expense rows to reset"), t)) := by
  constructor
  · intro h
    refine ⟨fun r =>
      if isExpenseRow r then
        { r with actuals := some 0, paymentDate := none, paid := false }
      else r, ?_, ?_⟩
    · unfold reset_monthly
      rw [if_pos h]
    · intro r
      constructor
      · intro hr
        simp [hr]
      · intro hr
        simp [hr]
  · intro h
    unfold reset_monthly
    rw [if_neg]
    simp [h]

/-- C8: `add_category_subcategory` rejects a key already present, leaving
the table unchanged; on a fresh key it appends exactly one new row carrying
the requested amounts, `Paid = false` and no dates. -/
theorem add_category_subcategory_C8 (c s : String) (e a : ℚ) (t : List Row) :
    ((∃ r ∈ t, r.category = some c ∧ r.subcategory = some s) →
      add_category_subcategory c s e a t
        = ((false, "Category/Subcategory combination already exists!"), t)) ∧
    ((∀ r ∈ t, ¬(r.category = some c ∧ r.subcategory = some s)) →
      ∃ nr : Row,
        add_category_subcategory c s e a t = ((true, "OK"), t ++ [nr]) ∧
        nr.category = some c ∧ nr.subcategory = some s ∧
        nr.expected = some e ∧ nr.actuals = some a ∧ nr.paid = false ∧
        nr.dueDate = none ∧ nr.paymentDate = none) := by
  constructor
  · intro h
    obtain ⟨r, hr, hc, hs⟩ := h
    unfold add_category_subcategory
    rw [if_pos]
    exact List.any_eq_true.mpr ⟨r, hr, by simp [keyMatch, hc, hs]⟩
  · intro h
    refine ⟨{ name := none, monthlyIncome := none, category := some c,
              subcategory := some s, expected := some e, actuals := some a,
              paymentDate := none, dueDate := none, paid := false },
            ?_, rfl, rfl, rfl, rfl, rfl, rfl, rfl⟩
    unfold add_category_subcategory
    rw [if_neg]
    intro hany
    obtain ⟨r, hr, hkr⟩ := List.any_eq_true.mp hany
    exact h r hr (by simpa [keyMatch] using hkr)

lemma length_filter_add_length_filter_not {α : Type} (p : α → Bool)
    (t : List α) :
    (t.filter p).length + (t.filter (fun r => !p r)).length = t.length := by
  induction t with
  | nil => rfl
  | cons a t ih => by_cases h : p a <;> simp [List.filter_cons, h] <;> omega

/-- C9: `remove_category` fails (reporting nothing removed) and leaves the
table unchanged when no row carries the category; otherwise it succeeds,
the result contains no row of that category while every other row keeps its
multiplicity, and the reported count equals the number of rows removed. -/
theorem remove_category_C9 (c : String) (t : List Row) :
    ((∀ r ∈ t, r.category ≠ some c) →
      remove_category c t = ((false, 0), t)) ∧
    ((∃ r ∈ t, r.category = some c) →
      (remove_category c t).1.1 = true ∧
      (∀ r : Row, (remove_category c t).2.count r
          = if r.category = some c then 0 else t.count r) ∧
      (remove_category c t).1.2 = t.length - (remove_category c t).2.length) := by
  constructor
  · intro h
    unfold remove_category
    rw [if_neg]
    intro hany
    obtain ⟨r, hr, hkr⟩ := List.any_eq_true.mp hany
    exact h r hr (by simpa using hkr)
  · intro h
    obtain ⟨r, hr, hc⟩ := h
    have hany : t.any (fun r : Row => r.category = some c) = true :=
      List.any_eq_true.mpr ⟨r, hr, by simp [hc]⟩
    unfold remove_category
    rw [if_pos hany]
    refine ⟨rfl, ?_, ?_⟩
    · intro r0
      by_cases h0 : r0.category = some c
      · rw [if_pos h0]
        apply List.count_eq_zero.mpr
        intro hmem
        have hp := (List.mem_filter.mp hmem).2
        simp [h0] at hp
      · rw [if_neg h0]
        apply List.count_filter
        simp [h0]
    · have hlen := length_filter_add_length_filter_not
        (fun r : Row => decide (r.category = some c)) t
      simp only []
      omega

/-- C10: marking an already-paid key as paid succeeds and re-stamps
`Payment Date` with the current date on every matching row — the stamp is
not limited to the unpaid-to-paid transition. -/
theorem set_paid_status_C10 (today : Int) (c s : String) (t : List Row)
    (h : ∃ r ∈ t, r.category = some c ∧ r.subcategory = some s ∧ r.paid = true) :
    (set_paid_status today c s true t).1.1 = true ∧
    ∀ r ∈ (set_paid_status today c s true t).2,
      r.category = some c → r.subcategory = some s →
        r.paid = true ∧ r.paymentDate = some today := by
  obtain ⟨r, hr, hc, hs, _⟩ := h
  have hany : t.any (keyMatch c s) = true :=
    List.any_eq_true.mpr ⟨r, hr, by simp [keyMatch, hc, hs]⟩
  unfold set_paid_status
  rw [if_pos hany]
  refine ⟨rfl, ?_⟩
  intro r1 hr1 hc1 hs1
  simp only [List.mem_map] at hr1
  obtain ⟨r0, hr0, rfl⟩ := hr1
  by_cases hk : keyMatch c s r0
  · simp [hk]
  · rw [Bool.eq_false_iff.mpr hk] at hc1 hs1 ⊢
    simp only [Bool.false_eq_true, if_false] at hc1 hs1 ⊢
    exact absurd (by simp [keyMatch, hc1, hs1]) hk

lemma filter_not_mem_take {α : Type} [DecidableEq α] (l : List α) (k : Nat)
    (hnd : l.Nodup) :
    l.filter (fun b => b ∉ l.take k) = l.drop k := by
  have hsplit : l.filter (fun b => decide (b ∉ l.take k))
      = (l.take k ++ l.drop k).filter (fun b => decide (b ∉ l.take k)) := by
    rw [List.take_append_drop]
  rw [hsplit, List.filter_append]
  have hnil : (l.take k).filter (fun b => decide (b ∉ l.take k)) = [] := by
    rw [List.filter_eq_nil_iff]
    intro a ha
    simp [ha]
  have hself : (l.drop k).filter (fun b => decide (b ∉ l.take k)) = l.drop k := by
    rw [List.filter_eq_self]
    intro a ha
    have hdisj : List.Disjoint (l.take k) (l.drop k) := by
      have := hnd
      rw [← List.take_append_drop k l, List.nodup_append] at this
      exact this.2.2
    simp only [decide_eq_true_eq]
    intro hmem
    exact hdisj hmem ha
  rw [hnil, hself, List.nil_append]

lemma purgeBackups_sorted (l : List Int) (hp : l.Pairwise (· < ·)) :
    purgeBackups l = l.drop (l.length - BACKUP_RETENTION) := by
  unfold purgeBackups
  by_cases hlen : l.length > BACKUP_RETENTION
  · rw [if_pos hlen]
    have hsorted : List.Sorted (· ≤ ·) l := hp.imp (fun h => le_of_lt h)
    have hnd : l.Nodup := hp.imp (fun h => ne_of_lt h)
    simp only [hsorted.insertionSort_eq]
    exact filter_not_mem_take l (l.length - BACKUP_RETENTION) hnd
  · rw [if_neg hlen]
    have : l.length - BACKUP_RETENTION = 0 := by omega
    rw [this, List.drop_zero]

lemma runSaves_backups (events : List (Int × List Row)) :
    ∀ d : Disk, d.file.isSome = true →
      (d.backups ++ events.map Prod.fst).Pairwise (· < ·) →
      d.backups.length ≤ BACKUP_RETENTION →
      (runSaves events d).backups
          = (d.backups ++ events.map Prod.fst).drop
              ((d.backups.length + events.length) - BACKUP_RETENTION) ∧
      (runSaves events d).file.isSome = true := by
  induction events with
  | nil =>
      intro d hf hp hlen
      refine ⟨?_, hf⟩
      have h0 : d.backups.length - BACKUP_RETENTION = 0 := by omega
      simp [runSaves, h0]
  | cons e rest ih =>
      intro d hf hp hlen
      obtain ⟨x, hx⟩ := Option.isSome_iff_exists.mp hf
      have hstep : runSaves (e :: rest) d
          = runSaves rest ⟨some e.2, purgeBackups (d.backups ++ [e.1])⟩ := by
        simp [runSaves, save_excel_data, hx]
      have hsub1 : (d.backups ++ [e.1]).Sublist (d.backups ++ e.1 :: rest.map Prod.fst) :=
        List.Sublist.append_left ((List.nil_sublist _).cons₂ e.1) d.backups
      have hp1 : (d.backups ++ [e.1]).Pairwise (· < ·) := by
        apply List.Pairwise.sublist hsub1
        simpa using hp
      have hpurge : purgeBackups (d.backups ++ [e.1])
          = (d.backups ++ [e.1]).drop
              (d.backups.length + 1 - BACKUP_RETENTION) := by
        rw [purgeBackups_sorted _ hp1]
        simp
      set j := d.backups.length + 1 - BACKUP_RETENTION with hj
      have hjle : j ≤ (d.backups ++ [e.1]).length := by
        simp only [List.length_append, List.length_singleton]
        omega
      have hsub2 : (purgeBackups (d.backups ++ [e.1])).Sublist (d.backups ++ [e.1]) := by
        rw [hpurge]
        exact List.drop_sublist _ _
      have hp2 : ((purgeBackups (d.backups ++ [e.1])) ++ rest.map Prod.fst).Pairwise (· < ·) := by
        apply List.Pairwise.sublist (hsub2.append (List.Sublist.refl _))
        have : (d.backups ++ [e.1]) ++ rest.map Prod.fst
            = d.backups ++ e.1 :: rest.map Prod.fst := by
          simp
        rw [this]
        simpa using hp
      have hlen2 : (purgeBackups (d.backups ++ [e.1])).length ≤ BACKUP_RETENTION := by
        rw [hpurge, List.length_drop]
        simp only [List.length_append, List.length_singleton]
        omega
      obtain ⟨hbk, hfl⟩ := ih ⟨some e.2, purgeBackups (d.backups ++ [e.1])⟩ rfl hp2 hlen2
      refine ⟨?_, by rw [hstep]; exact hfl⟩
      rw [hstep, hbk]
      simp only [hpurge]
      rw [← List.drop_append_of_le_length hjle, List.drop_drop]
      have hidx : j + ((List.drop j (d.backups ++ [e.1])).length
            + rest.length - BACKUP_RETENTION)
          = d.backups.length + (e :: rest).length - BACKUP_RETENTION := by
        rw [List.length_drop]
        simp only [List.length_append, List.length_singleton, List.length_cons,
          List.length_nil]
        omega
      rw [hidx]
      have hassoc : d.backups ++ [e.1] ++ rest.map Prod.fst
          = d.backups ++ e.1 :: rest.map Prod.fst := by
        simp
      rw [hassoc]
      simp [List.map_cons]

/-- C3: starting from a disk holding the backing file and no backups, a
run of successful saves with strictly increasing timestamps always leaves
at most `BACKUP_RETENTION` (5) backup files, and the backups remaining
after the run are exactly the most recently created ones (the purge having
deleted the oldest-by-modification-time first). -/
theorem save_excel_data_C3 (events : List (Int × List Row)) (d : Disk)
    (hb : d.backups = []) (hf : d.file.isSome = true)
    (hmono : (events.map Prod.fst).Pairwise (· < ·)) :
    (runSaves events d).backups.length ≤ BACKUP_RETENTION ∧
    (runSaves events d).backups
      = (events.map Prod.fst).drop (events.length - BACKUP_RETENTION) := by
  have h := runSaves_backups events d hf
    (by rw [hb]; simpa using hmono)
    (by rw [hb]; simp)
  rw [hb] at h
  simp only [List.nil_append, List.length_nil, Nat.zero_add] at h
  refine ⟨?_, h.1⟩
  rw [h.1, List.length_drop, List.length_map]
  omega

/-- C4: when the backing file exists and the backup copy step fails,
`save_excel_data` returns an error naming the backup failure and the disk
is completely untouched: no backup is recorded, the purge does not run,
and the new table is not written. -/
theorem save_excel_data_C4 (now : Int) (writeFails : Bool) (df : List Row)
    (d : Disk) (h : d.file.isSome = true) :
    (save_excel_data now true writeFails df d).1.1 = false ∧
    (save_excel_data now true writeFails df d).1.2 = "Failed to create backup" ∧
    (save_excel_data now true writeFails df d).2 = d := by
  obtain ⟨x, hx⟩ := Option.isSome_iff_exists.mp h
  simp [save_excel_data, hx]

instance paidInvariantDecidable (t : List Row) : Decidable (paidInvariant t) := by
  unfold paidInvariant
  infer_instance

/-! ### Concrete witnesses -/

/-- A well-formed expense row used by the witnesses. -/
def foodRow : Row :=
  { blankRow with
      category := some "Food",
      subcategory := some "Groceries",
      expected := some 50,
      actuals := some 20,
      paid := true,
      paymentDate := some 10 }

/-- Seven save events with strictly increasing timestamps. -/
def sevenSaves : List (Int × List Row) :=
  [(1, []), (2, []), (3, []), (4, []), (5, []), (6, []), (7, [])]

/-- Initial disk for the retention witness: the backing file exists, no
backups yet. -/
def diskStart : Disk := ⟨some [], []⟩

theorem save_excel_data_C3_witness :
    diskStart.backups = [] ∧ diskStart.file.isSome = true ∧
    (sevenSaves.map Prod.fst).Pairwise (· < ·) ∧
    ((runSaves sevenSaves diskStart).backups.length ≤ BACKUP_RETENTION ∧
     (runSaves sevenSaves diskStart).backups
       = (sevenSaves.map Prod.fst).drop (sevenSaves.length - BACKUP_RETENTION)) :=
  ⟨rfl, rfl, by decide,
   save_excel_data_C3 sevenSaves diskStart rfl rfl (by decide)⟩

theorem save_excel_data_C4_witness :
    (Disk.mk (some []) [1, 2]).file.isSome = true ∧
    ((save_excel_data 7 true false [foodRow] ⟨some [], [1, 2]⟩).1.1 = false ∧
     (save_excel_data 7 true false [foodRow] ⟨some [], [1, 2]⟩).1.2
       = "Failed to create backup" ∧
     (save_excel_data 7 true false [foodRow] ⟨some [], [1, 2]⟩).2
       = ⟨some [], [1, 2]⟩) :=
  ⟨rfl, save_excel_data_C4 7 false [foodRow] ⟨some [], [1, 2]⟩ rfl⟩

theorem set_paid_status_C6_witness :
    paidInvariant [blankRow] ∧
    paidInvariant
      (applySetPaidCalls [((5 : Int), "Food", "Groceries", true)] [blankRow]) :=
  ⟨by decide,
   (set_paid_status_C6 [((5 : Int), "Food", "Groceries", true)] [blankRow]
     (by decide)).1⟩

theorem reset_monthly_C7_witness :
    [foodRow].any isExpenseRow = true ∧
    (∃ f : Row → Row,
      reset_monthly [foodRow] = ((true, "OK"), [foodRow].map f) ∧
      ∀ r : Row,
        (isExpenseRow r = true →
          (f r).actuals = some 0 ∧ (f r).paymentDate = none ∧
          (f r).paid = false ∧ (f r).expected = r.expected ∧
          (f r).dueDate = r.dueDate ∧ (f r).category = r.category ∧
          (f r).subcategory = r.subcategory ∧ (f r).name = r.name ∧
          (f r).monthlyIncome = r.monthlyIncome) ∧
        (isExpenseRow r = false → f r = r)) :=
  ⟨by decide, (reset_monthly_C7 [foodRow]).1 (by decide)⟩

theorem add_category_subcategory_C8_witness :
    (∀ r ∈ ([] : List Row),
      ¬(r.category = some "Food" ∧ r.subcategory = some "Groceries")) ∧
    (∃ nr : Row,
      add_category_subcategory "Food" "Groceries" 50 20 []
        = ((true, "OK"), [] ++ [nr]) ∧
      nr.category = some "Food" ∧ nr.subcategory = some "Groceries" ∧
      nr.expected = some 50 ∧ nr.actuals = some 20 ∧ nr.paid = false ∧
      nr.dueDate = none ∧ nr.paymentDate = none) :=
  ⟨by decide,
   (add_category_subcategory_C8 "Food" "Groceries" 50 20 []).2 (by decide)⟩

theorem remove_category_C9_witness :
    (∃ r ∈ [foodRow], r.category = some "Food") ∧
    ((remove_category "Food" [foodRow]).1.1 = true ∧
     (∀ r : Row, (remove_category "Food" [foodRow]).2.count r
        = if r.category = some "Food" then 0 else [foodRow].count r) ∧
     (remove_category "Food" [foodRow]).1.2
       = [foodRow].length - (remove_category "Food" [foodRow]).2.length) :=
  ⟨by decide, (remove_category_C9 "Food" [foodRow]).2 (by decide)⟩

theorem set_paid_status_C10_witness :
    (∃ r ∈ [foodRow],
      r.category = some "Food" ∧ r.subcategory = some "Groceries" ∧
      r.paid = true) ∧
    ((set_paid_status 42 "Food" "Groceries" true [foodRow]).1.1 = true ∧
     ∀ r ∈ (set_paid_status 42 "Food" "Groceries" true [foodRow]).2,
       r.category = some "Food" → r.subcategory = some "Groceries" →
         r.paid = true ∧ r.paymentDate = some (42 : Int)) :=
  ⟨by decide,
   set_paid_status_C10 42 "Food" "Groceries" [foodRow] (by decide)⟩

end ExpenseTracker
